import Mathlib

/-!
Verification of the Movement Analysis & Evidence Synthesis Engine.

This file gives a shallow embedding, in Lean 4, of the algorithmic core of
the repository: the move classifier (`src/analyzer.py`), the signal
extractor (`src/market_data.py`, `backend/services/market_data.py`), the
news aggregator (`src/news_data.py`), the explanation synthesizer
(`src/ai_engine.py`, `backend/services/ai_engine.py`) and the orchestrator
(`src/move_engine.py`), together with theorems settling the specification
claims about them.

Modelling conventions:
* Python floats are modelled as `ℚ` (exact rational arithmetic);
  `round(x, 2)` is modelled as exact half-to-even rounding to two decimals.
* Python strings are modelled as Lean `String`, with the string operations
  (`lower`, `strip`, `startswith`, `in`, `split('\n')`) re-implemented as
  structural recursion over the character list `String.data`, matching
  Python semantics on ASCII text.
* Dictionaries produced by the Python functions are modelled as records
  whose fields are exactly the dictionary keys.
-/

namespace Move

/-! ### String primitives (Python `str` operations on ASCII text) -/

/-- Boolean test whether `needle` is an initial segment of `hay`
(Python `hay.startswith(needle)` restricted to a character list). -/
def listLeads : List Char → List Char → Bool
  | [], _ => true
  | _ :: _, [] => false
  | a :: as, b :: bs => a = b && listLeads as bs

/-- Boolean test whether `needle` occurs contiguously inside `hay`
(Python `needle in hay` on strings, viewed on character lists). -/
def listHasSub : List Char → List Char → Bool
  | needle, [] => listLeads needle []
  | needle, c :: t => listLeads needle (c :: t) || listHasSub needle t

/-- Python `s.startswith(pre)`. -/
def strStarts (s pre : String) : Bool := listLeads pre.data s.data

/-- Python `needle in hay` (substring containment). -/
def strHasSub (needle hay : String) : Bool := listHasSub needle.data hay.data

/-- Python `s.lower()` (ASCII case folding). -/
def strLower (s : String) : String := ⟨s.data.map Char.toLower⟩

/-- Characters stripped by Python `str.strip()`: space, tab, newline,
carriage return, vertical tab, form feed. -/
def isPySpace (c : Char) : Bool :=
  c = ' ' || c = '\t' || c = '\n' || c = '\r' || c.val = 11 || c.val = 12

/-- Python `s.strip()` on a character list. -/
def trimChars (cs : List Char) : List Char :=
  ((cs.dropWhile isPySpace).reverse.dropWhile isPySpace).reverse

/-- Python `s.strip()`. -/
def strTrim (s : String) : String := ⟨trimChars s.data⟩

/-- Splitting a character list at newline characters; auxiliary
accumulator carries the current (reversed) line. -/
def splitNlAux : List Char → List Char → List (List Char)
  | acc, [] => [acc.reverse]
  | acc, c :: t => if c = '\n' then acc.reverse :: splitNlAux [] t else splitNlAux (c :: acc) t

/-- Python `s.split('\n')`. -/
def splitLines (s : String) : List String :=
  (splitNlAux [] s.data).map fun l => ⟨l⟩

/-! ### Exact decimal rounding (Python `round(x, n)` on exact values) -/

/-- Round a rational to the nearest integer, ties to even
(the rounding mode of Python `round`). -/
def roundHalfEven (q : ℚ) : ℤ :=
  let f : ℤ := ⌊q⌋
  let r : ℚ := q - f
  if r < 1/2 then f
  else if 1/2 < r then f + 1
  else if f % 2 = 0 then f else f + 1

/-- Python `round(q, 2)` as exact rounding to two decimal places. -/
def round2 (q : ℚ) : ℚ := (roundHalfEven (100 * q) : ℚ) / 100

/-- Python `int(q)` (truncation toward zero). -/
def truncToInt (q : ℚ) : ℤ := if 0 ≤ q then ⌊q⌋ else -⌊-q⌋

/-! ### Contextual classifier — `ContextualAnalyzer._classify_move`
(`src/analyzer.py`, lines 90–131) -/

/-- Embedding of `ContextualAnalyzer._classify_move`.  Faithful line-by-line
translation: `same_direction` is the strict product test
`(stock_pct * market_pct) > 0`, the sector branch is tried only when a
sector change is available, and the remaining checks fall through in
source order. -/
def classify_move (stock_pct market_pct : ℚ) (sector_pct : Option ℚ) : String :=
  let same_direction := stock_pct * market_pct > 0
  let market_diff := |stock_pct - market_pct|
  if same_direction ∧ market_diff < 3/2 then "market_driven"
  else
    match sector_pct with
    | some sp =>
        let sector_diff := |stock_pct - sp|
        let same_direction_sector := stock_pct * sp > 0
        if same_direction_sector ∧ sector_diff < market_diff ∧ sector_diff < 2 then
          "sector_driven"
        else if market_diff > 3 then "stock_specific"
        else "mixed_influence"
    | none =>
        if market_diff > 3 then "stock_specific"
        else "mixed_influence"

/-- Sign comparison as worded by claim C1: zero is treated as a
non-negative sign, so two values share direction when both are ≥ 0 or
both are < 0. -/
def sameDirectionSpec (x y : ℚ) : Prop := (0 ≤ x ∧ 0 ≤ y) ∨ (x < 0 ∧ y < 0)

instance (x y : ℚ) : Decidable (sameDirectionSpec x y) := by
  unfold sameDirectionSpec; infer_instance

/-- The ordered rules of §4.2 exactly as claim C1 states them, with
zero treated as carrying non-negative sign; rule 2 applies only when a
sector value is present. -/
def classifySpecC1 (stock_pct market_pct : ℚ) : Option ℚ → String
  | none =>
      if sameDirectionSpec stock_pct market_pct ∧ |stock_pct - market_pct| < 3/2 then
        "market_driven"
      else if |stock_pct - market_pct| > 3 then "stock_specific"
      else "mixed_influence"
  | some sp =>
      if sameDirectionSpec stock_pct market_pct ∧ |stock_pct - market_pct| < 3/2 then
        "market_driven"
      else if sameDirectionSpec stock_pct sp ∧
          |stock_pct - sp| < |stock_pct - market_pct| ∧ |stock_pct - sp| < 2 then
        "sector_driven"
      else if |stock_pct - market_pct| > 3 then "stock_specific"
      else "mixed_influence"

/-- The ordered rules of §4.2 amended to the source's direction test:
two changes share direction only when their product is strictly
positive, so a zero change never shares direction with anything. -/
def classifySpecC1Amended (stock_pct market_pct : ℚ) : Option ℚ → String
  | none =>
      if stock_pct * market_pct > 0 ∧ |stock_pct - market_pct| < 3/2 then
        "market_driven"
      else if |stock_pct - market_pct| > 3 then "stock_specific"
      else "mixed_influence"
  | some sp =>
      if stock_pct * market_pct > 0 ∧ |stock_pct - market_pct| < 3/2 then
        "market_driven"
      else if stock_pct * sp > 0 ∧
          |stock_pct - sp| < |stock_pct - market_pct| ∧ |stock_pct - sp| < 2 then
        "sector_driven"
      else if |stock_pct - market_pct| > 3 then "stock_specific"
      else "mixed_influence"

/-- Claim C1 counterexample: at stock_pct = 0, market_pct = 0.5, no sector,
the claim's rules (zero counted as non-negative sign) give
`market_driven`, but the code's strict-product direction test fails and
the classifier returns `mixed_influence`. -/
theorem C1_counterexample :
    classifySpecC1 0 (1/2) none = "market_driven" ∧
    classify_move 0 (1/2) none = "mixed_influence" ∧
    ("market_driven" : String) ≠ "mixed_influence" := by
  have habs : |(1 : ℚ)/2| = 1/2 := by rw [abs_of_nonneg] ; norm_num
  refine ⟨?_, ?_, by decide⟩
  · norm_num [classifySpecC1, sameDirectionSpec, habs]
  · norm_num [classify_move, habs]

/-- Claim C1 (amended): for every triple, the classifier returns exactly
the ordered rules of §4.2 with the direction test taken strictly —
stock and market (resp. sector) share direction exactly when the product
of the two changes is strictly positive, so a zero change never counts
as same-direction. -/
theorem C1_classify_move_eq_amended_rules
    (stock_pct market_pct : ℚ) (sector_pct : Option ℚ) :
    classify_move stock_pct market_pct sector_pct =
      classifySpecC1Amended stock_pct market_pct sector_pct := by
  cases sector_pct with
  | none =>
      simp only [classify_move, classifySpecC1Amended]
  | some sp =>
      simp only [classify_move, classifySpecC1Amended]

/-! ### Explanation synthesizer — `AIExplanationEngine._calculate_confidence`
(`src/ai_engine.py`, lines 242–281) -/

/-- Embedding of `AIExplanationEngine._calculate_confidence`: sequential
accumulation onto a base of 0.5, then a clamp into [0.3, 0.95].  The
evidence dictionary fields the source reads are passed as arguments. -/
def calculate_confidence (has_significant_news : Bool) (news_count : ℕ)
    (volume_spike : Bool) (classification : String) (price_change_pct : ℚ) : ℚ :=
  let c0 : ℚ := 0.5
  let c1 := if has_significant_news ∧ news_count ≥ 3 then c0 + 0.2
            else if news_count ≥ 1 then c0 + 0.1 else c0
  let c2 := if volume_spike then c1 + 0.15 else c1
  let c3 := if classification ∈ (["market_driven", "stock_specific"] : List String) then c2 + 0.1
            else if classification = "sector_driven" then c2 + 0.05 else c2
  let c4 := if |price_change_pct| < 1 then c3 - 0.1 else c3
  let c5 := if volume_spike ∧ ¬has_significant_news then c4 - 0.05 else c4
  max 0.3 (min 0.95 c5)

/-- The confidence formula exactly as claim C3 words it: a clamp into
[0.3, 0.95] of 0.5 plus/minus the individual evidence adjustments. -/
def confidenceSpecC3 (has_significant_news : Bool) (news_count : ℕ)
    (volume_spike : Bool) (classification : String) (price_change_pct : ℚ) : ℚ :=
  max 0.3 (min 0.95 (0.5
    + (if has_significant_news ∧ news_count ≥ 3 then 0.2
       else if news_count ≥ 1 then 0.1 else 0)
    + (if volume_spike then 0.15 else 0)
    + (if classification = "market_driven" ∨ classification = "stock_specific" then 0.1
       else if classification = "sector_driven" then 0.05 else 0)
    - (if |price_change_pct| < 1 then 0.1 else 0)
    - (if volume_spike ∧ ¬has_significant_news then 0.05 else 0)))

set_option maxHeartbeats 1000000 in
/-- Claim C3: on the parsed path, the confidence score is exactly the
clamped sum of the evidence adjustments, for every combination of the
evidence inputs. -/
theorem C3_confidence_matches_spec_formula (has_significant_news : Bool)
    (news_count : ℕ) (volume_spike : Bool) (classification : String)
    (price_change_pct : ℚ) :
    calculate_confidence has_significant_news news_count volume_spike
        classification price_change_pct =
      confidenceSpecC3 has_significant_news news_count volume_spike
        classification price_change_pct := by
  unfold calculate_confidence confidenceSpecC3
  simp only [List.mem_cons, List.mem_singleton, List.not_mem_nil, or_false]
  split_ifs <;> norm_num

/-! ### Signal extractor — `MarketDataFetcher.detect_volume_anomaly`
(`src/market_data.py`, lines 115–149) and the 20-day volume block of
`MarketDataService.get_stock_data` (`backend/services/market_data.py`,
lines 219–224) -/

/-- Result dictionary of `detect_volume_anomaly`.  In the empty-history
branch the source dictionary has no `volume` key; that absence is
modelled by `none`. -/
structure VolumeMetrics where
  volume : Option ℤ
  avg_volume : ℤ
  volume_ratio : ℚ
  volume_spike : Bool
  deriving Repr, DecidableEq

/-- Embedding of `MarketDataFetcher.detect_volume_anomaly` after the data
fetch: the inputs are the volumes of the up-to-`lookback_days` bars
strictly preceding the target date and the target day's volume (`none`
when the target day has no bar). -/
def detect_volume_anomaly : List ℚ → Option ℤ → VolumeMetrics
  | [], _ => ⟨none, 0, 1, false⟩
  | _ :: _, none => ⟨none, 0, 1, false⟩
  | h :: t, some tv =>
      let hist := h :: t
      let avg := hist.sum / hist.length
      let ratio := if avg > 0 then (tv : ℚ) / avg else 1
      ⟨some tv, truncToInt avg, round2 ratio, decide (ratio ≥ 3/2)⟩

/-- Embedding of the volume block of `MarketDataService.get_stock_data`
(backend variant): the positive volumes of the last 20 rows are averaged
and the returned ratio is rounded to two decimals.  Returns the pair
(average volume, returned volume ratio). -/
def backend_volume_part (volumes : List ℤ) (targetVolume : ℤ) : ℚ × ℚ :=
  let vs := volumes.filter fun v => 0 < v
  let avg : ℚ := if vs = [] then 0 else (vs.sum : ℚ) / vs.length
  let ratio := if avg > 0 then (targetVolume : ℚ) / avg else 1
  (avg, round2 ratio)

/-- Claim C4 counterexample: with one preceding bar of volume 3 and a
target volume of 1, the returned `volume_ratio` is the two-decimal
rounding 0.33, not the exact quotient 1/3 the claim states. -/
theorem C4_counterexample :
    (detect_volume_anomaly [3] (some 1)).volume_ratio = 33/100 ∧
    (33/100 : ℚ) ≠ 1/3 ∧
    ([3] : List ℚ).sum / (([3] : List ℚ).length : ℚ) = 3 ∧ (0 : ℚ) < 3 := by
  refine ⟨?_, by norm_num, by simp, by norm_num⟩
  simp only [detect_volume_anomaly, List.sum_cons, List.sum_nil, List.length_cons,
    List.length_nil]
  norm_num [round2, roundHalfEven]

/-- Claim C4 (amended): volume-anomaly detection never divides by zero —
with empty history or a missing target bar the result is ratio 1.0 and
no spike; with history whose average volume is 0 the result is likewise
ratio 1.0 and no spike; and when the average is positive the returned
`volume_ratio` is `volume / avg_volume` rounded to two decimals, with
the spike flag comparing the unrounded quotient to 1.5.  The backend
variant satisfies the same zero-average guard and rounding. -/
theorem C4_volume_anomaly_guarded (hist : List ℚ) (tv : ℤ) :
    (∀ t, detect_volume_anomaly [] t = ⟨none, 0, 1, false⟩) ∧
    (detect_volume_anomaly hist none = ⟨none, 0, 1, false⟩) ∧
    (hist ≠ [] → hist.sum / hist.length = 0 →
      (detect_volume_anomaly hist (some tv)).volume_ratio = 1 ∧
      (detect_volume_anomaly hist (some tv)).volume_spike = false) ∧
    (hist ≠ [] → 0 < hist.sum / hist.length →
      (detect_volume_anomaly hist (some tv)).volume_ratio =
        round2 ((tv : ℚ) / (hist.sum / hist.length)) ∧
      ((detect_volume_anomaly hist (some tv)).volume_spike = true ↔
        3/2 ≤ (tv : ℚ) / (hist.sum / hist.length))) ∧
    (∀ vols v, (backend_volume_part vols v).1 = 0 → (backend_volume_part vols v).2 = 1) ∧
    (∀ vols v, 0 < (backend_volume_part vols v).1 →
      (backend_volume_part vols v).2 = round2 ((v : ℚ) / (backend_volume_part vols v).1)) := by
  have hr1 : round2 1 = 1 := by norm_num [round2, roundHalfEven]
  constructor
  · intro t; cases t <;> rfl
  constructor
  · cases hist <;> rfl
  constructor
  · intro hne hzero
    cases hist with
    | nil => exact absurd rfl hne
    | cons h t =>
        simp only [detect_volume_anomaly]
        rw [if_neg (by rw [hzero] ; exact lt_irrefl 0)]
        exact ⟨hr1, by norm_num⟩
  constructor
  · intro hne hpos
    cases hist with
    | nil => exact absurd rfl hne
    | cons h t =>
        simp only [detect_volume_anomaly]
        rw [if_pos hpos]
        exact ⟨rfl, by simp [ge_iff_le]⟩
  constructor
  · intro vols v hz
    simp only [backend_volume_part] at hz ⊢
    rw [if_neg (by rw [hz] ; exact lt_irrefl 0)]
    exact hr1
  · intro vols v hp
    simp only [backend_volume_part] at hp ⊢
    rw [if_pos hp]

/-- Claim C4 witness: a concrete run through the positive-average branch —
history [2], target volume 3, average 2, unrounded ratio 3/2. -/
theorem C4_witness :
    (detect_volume_anomaly [2] (some 3)).volume_ratio = 3/2 ∧
    (detect_volume_anomaly [2] (some 3)).volume_spike = true := by
  have h := (C4_volume_anomaly_guarded [2] 3).2.2.2.1 (by simp)
    (by simp)
  refine ⟨?_, ?_⟩
  · rw [h.1]
    simp only [List.sum_cons, List.sum_nil, List.length_cons, List.length_nil]
    norm_num [round2, roundHalfEven]
  · rw [h.2]
    simp only [List.sum_cons, List.sum_nil, List.length_cons, List.length_nil]
    norm_num

/-! ### Signal extractor — `MarketDataService._calculate_rsi`
(`backend/services/market_data.py`, lines 598–621) -/

/-- Day-over-day deltas: `[prices[i] - prices[i-1] for i in range(1, len(prices))]`. -/
def deltas : List ℚ → List ℚ
  | [] => []
  | [_] => []
  | a :: b :: t => (b - a) :: deltas (b :: t)

/-- Python slice `l[-k:]`: the trailing `k` elements (the whole list when
`k` exceeds its length). -/
def takeLast (l : List ℚ) (k : ℕ) : List ℚ := l.drop (l.length - k)

/-- Embedding of `MarketDataService._calculate_rsi`: absent when fewer
than `period + 1` closes exist, otherwise the simplified RSI over plain
arithmetic means of the trailing `period` gains and losses. -/
def calculate_rsi (prices : List ℚ) (period : ℕ) : Option ℚ :=
  if prices.length < period + 1 then none
  else
    let ds := deltas prices
    let gains := ds.map fun d => if d > 0 then d else 0
    let losses := ds.map fun d => if d < 0 then -d else 0
    let avg_gain := (takeLast gains period).sum / period
    let avg_loss := (takeLast losses period).sum / period
    if avg_loss = 0 then some 100
    else some (100 - 100 / (1 + avg_gain / avg_loss))

/-- Trailing `period` day-over-day gains, as §4.1 words it. -/
def trailingGains (closes : List ℚ) (period : ℕ) : List ℚ :=
  takeLast ((deltas closes).map fun d => if d > 0 then d else 0) period

/-- Trailing `period` day-over-day losses, as §4.1 words it. -/
def trailingLosses (closes : List ℚ) (period : ℕ) : List ℚ :=
  takeLast ((deltas closes).map fun d => if d < 0 then -d else 0) period

/-- Plain arithmetic mean of the trailing gains (sum over `period`;
the defined case always has exactly `period` of them). -/
def avgGain (closes : List ℚ) (period : ℕ) : ℚ := (trailingGains closes period).sum / period

/-- Plain arithmetic mean of the trailing losses. -/
def avgLoss (closes : List ℚ) (period : ℕ) : ℚ := (trailingLosses closes period).sum / period

theorem deltas_length (l : List ℚ) : (deltas l).length = l.length - 1 := by
  induction l with
  | nil => rfl
  | cons a t ih =>
      cases t with
      | nil => rfl
      | cons b u => simpa [deltas] using ih

theorem sum_nonneg_of_gains (ds : List ℚ) (period : ℕ) :
    0 ≤ (takeLast (ds.map fun d => if d > 0 then d else 0) period).sum := by
  apply List.sum_nonneg
  intro x hx
  have hx' := List.mem_of_mem_drop hx
  obtain ⟨d, _, rfl⟩ := List.mem_map.mp hx'
  split_ifs with h
  · exact le_of_lt h
  · exact le_refl 0

theorem sum_nonneg_of_losses (ds : List ℚ) (period : ℕ) :
    0 ≤ (takeLast (ds.map fun d => if d < 0 then -d else 0) period).sum := by
  apply List.sum_nonneg
  intro x hx
  have hx' := List.mem_of_mem_drop hx
  obtain ⟨d, _, rfl⟩ := List.mem_map.mp hx'
  split_ifs with h
  · linarith
  · exact le_refl 0

/-- Claim C6: the RSI is absent exactly when fewer than period+1 closes
exist; when defined it equals the claimed formula over the plain
arithmetic means of the trailing period gains/losses (of which there are
exactly `period` each), and it lies in [0, 100]. -/
theorem C6_rsi_defined_iff_and_bounded (closes : List ℚ) (period : ℕ)
    (hper : 0 < period) :
    (calculate_rsi closes period = none ↔ closes.length < period + 1) ∧
    (∀ r, calculate_rsi closes period = some r →
      (trailingGains closes period).length = period ∧
      (trailingLosses closes period).length = period ∧
      r = (if avgLoss closes period = 0 then 100
           else 100 - 100 / (1 + avgGain closes period / avgLoss closes period)) ∧
      0 ≤ r ∧ r ≤ 100) := by
  have heq : calculate_rsi closes period =
      if closes.length < period + 1 then none
      else if avgLoss closes period = 0 then some 100
      else some (100 - 100 / (1 + avgGain closes period / avgLoss closes period)) := rfl
  constructor
  · rw [heq]
    split_ifs with hlen hz
    · simp [hlen]
    · simp [hlen]
    · simp [hlen]
  · intro r hr
    have hlen' : period + 1 ≤ closes.length := by
      by_contra hcon
      rw [heq, if_pos (not_le.mp hcon)] at hr
      exact absurd hr (by simp)
    have hdl : (deltas closes).length = closes.length - 1 := deltas_length closes
    have hglen : (trailingGains closes period).length = period := by
      unfold trailingGains takeLast
      rw [List.length_drop, List.length_map, hdl]
      omega
    have hllen : (trailingLosses closes period).length = period := by
      unfold trailingLosses takeLast
      rw [List.length_drop, List.length_map, hdl]
      omega
    have hg0 : 0 ≤ avgGain closes period := by
      unfold avgGain trailingGains
      apply div_nonneg (sum_nonneg_of_gains _ _)
      exact_mod_cast Nat.zero_le period
    have hl0 : 0 ≤ avgLoss closes period := by
      unfold avgLoss trailingLosses
      apply div_nonneg (sum_nonneg_of_losses _ _)
      exact_mod_cast Nat.zero_le period
    rw [heq, if_neg (not_lt.mpr hlen')] at hr
    refine ⟨hglen, hllen, ?_⟩
    split_ifs at hr with hz
    · have hr' : r = 100 := (Option.some.inj hr).symm
      refine ⟨by rw [hr', if_pos hz], by rw [hr'] ; norm_num, by rw [hr']⟩
    · have hlpos : 0 < avgLoss closes period := lt_of_le_of_ne hl0 (Ne.symm hz)
      have hrs : 0 ≤ avgGain closes period / avgLoss closes period :=
        div_nonneg hg0 (le_of_lt hlpos)
      have hr' : r = 100 - 100 / (1 + avgGain closes period / avgLoss closes period) :=
        (Option.some.inj hr).symm
      have hden : (0:ℚ) < 1 + avgGain closes period / avgLoss closes period := by linarith
      have hfrac_pos : (0:ℚ) < 100 / (1 + avgGain closes period / avgLoss closes period) :=
        div_pos (by norm_num) hden
      have hfrac_le : 100 / (1 + avgGain closes period / avgLoss closes period) ≤ 100 :=
        div_le_self (by norm_num) (by linarith)
      refine ⟨by rw [hr', if_neg hz], by rw [hr'] ; linarith, by rw [hr'] ; linarith⟩

/-- Claim C6 witness: fifteen strictly rising closes, period 14 — the RSI
is defined and equals 100 (no losses), with exactly 14 trailing gains. -/
theorem C6_witness :
    0 < 14 ∧
    (calculate_rsi [1,2,3,4,5,6,7,8,9,10,11,12,13,14,15] 14 = none ↔
      ([1,2,3,4,5,6,7,8,9,10,11,12,13,14,15] : List ℚ).length < 14 + 1) := by
  have h := C6_rsi_defined_iff_and_bounded
    [1,2,3,4,5,6,7,8,9,10,11,12,13,14,15] 14 (by norm_num)
  exact ⟨by norm_num, h.1⟩

/-! ### Signal extractor — `MarketDataFetcher.calculate_price_change`
(`src/market_data.py`, lines 82–113) -/

/-- The day record consumed by `calculate_price_change` (produced by
`get_day_data`): the Python dictionary's `open`, `close` and
`previous_close` entries, the last being `None` when no earlier bar
exists. -/
structure DayPrice where
  openPrice : ℚ
  closePrice : ℚ
  previousClose : Option ℚ
  deriving Repr, DecidableEq

/-- Result dictionary of `calculate_price_change`; in the no-prior-bar
branch the source dictionary has no `price_change_abs` key (modelled as
`none`). -/
structure PriceMetrics where
  price_change_pct : ℚ
  intraday_change_pct : ℚ
  price_change_abs : Option ℚ
  is_significant : Bool
  deriving Repr, DecidableEq

/-- Embedding of `MarketDataFetcher.calculate_price_change`: when no
previous close exists every percentage is 0.0 and the move is not
significant; otherwise both percentages are computed and rounded to two
decimals, and significance compares the unrounded percentage to 2.0. -/
def calculate_price_change (d : DayPrice) : PriceMetrics :=
  match d.previousClose with
  | none => ⟨0, 0, none, false⟩
  | some prev =>
      let pct := (d.closePrice - prev) / prev * 100
      let intra := (d.closePrice - d.openPrice) / d.openPrice * 100
      ⟨round2 pct, round2 intra, some (round2 (d.closePrice - prev)), decide (|pct| ≥ 2)⟩

/-- Claim C7 counterexample: with open 100, close 110 and no prior bar the
code returns `intraday_change_pct = 0.0`, not the claimed
(close − open)/open × 100 = 10. -/
theorem C7_counterexample :
    (calculate_price_change ⟨100, 110, none⟩).intraday_change_pct = 0 ∧
    ((110 : ℚ) - 100) / 100 * 100 = 10 ∧ (0 : ℚ) ≠ 10 := by
  refine ⟨rfl, by norm_num, by norm_num⟩

/-- Claim C7 (amended): with a prior bar, `price_change_pct` and
`intraday_change_pct` are the exact percentages rounded to two decimals
and `is_significant` compares the unrounded day-over-day percentage to
2.0; with no prior bar, `price_change_pct`, `intraday_change_pct` are
both 0.0 and `is_significant` is false. -/
theorem C7_price_change_shape (o c p : ℚ) :
    calculate_price_change ⟨o, c, none⟩ = ⟨0, 0, none, false⟩ ∧
    (calculate_price_change ⟨o, c, some p⟩).price_change_pct =
      round2 ((c - p) / p * 100) ∧
    (calculate_price_change ⟨o, c, some p⟩).intraday_change_pct =
      round2 ((c - o) / o * 100) ∧
    ((calculate_price_change ⟨o, c, some p⟩).is_significant = true ↔
      2 ≤ |(c - p) / p * 100|) := by
  refine ⟨rfl, rfl, rfl, ?_⟩
  simp [calculate_price_change, ge_iff_le]

/-! ### News aggregator — `NewsDataFetcher._filter_and_deduplicate` and
`NewsDataFetcher.summarize_news` (`src/news_data.py`, lines 131–145 and
178–195) -/

/-- A news article as consumed by the aggregator; only the fields the
claims touch are carried (`source` keeps articles with equal titles
distinguishable, as in the source dictionaries). -/
structure Article where
  title : String
  source : String
  deriving Repr, DecidableEq

/-- The deduplication key: `article['title'].lower()`. -/
def titleKey (a : Article) : List Char := a.title.data.map Char.toLower

/-- Loop of `_filter_and_deduplicate`: `seen` is the set of lowered titles
already emitted (the source's `seen_titles`); an article whose lowered
title was already seen is skipped, otherwise it is kept and its key
recorded.  The date parameters of the source are unused by its body. -/
def dedupGo (seen : List (List Char)) : List Article → List Article
  | [] => []
  | a :: rest =>
      if titleKey a ∈ seen then dedupGo seen rest
      else a :: dedupGo (titleKey a :: seen) rest

/-- Embedding of `NewsDataFetcher._filter_and_deduplicate`. -/
def filter_and_deduplicate (articles : List Article) : List Article := dedupGo [] articles

theorem dedupGo_sublist (l : List Article) : ∀ seen, List.Sublist (dedupGo seen l) l := by
  induction l with
  | nil => intro seen; simp [dedupGo]
  | cons a rest ih =>
      intro seen
      simp only [dedupGo]
      split_ifs with h
      · exact (ih seen).cons a
      · exact (ih _).cons₂ a

theorem dedupGo_key_not_seen (l : List Article) :
    ∀ seen b, b ∈ dedupGo seen l → titleKey b ∉ seen := by
  induction l with
  | nil => intro seen b hb; simp [dedupGo] at hb
  | cons a rest ih =>
      intro seen b hb
      simp only [dedupGo] at hb
      split_ifs at hb with h
      · exact ih seen b hb
      · rcases List.mem_cons.mp hb with rfl | hb'
        · exact h
        · intro hc
          exact ih _ b hb' (List.mem_cons_of_mem _ hc)

theorem dedupGo_pairwise (l : List Article) :
    ∀ seen, (dedupGo seen l).Pairwise (fun x y => titleKey x ≠ titleKey y) := by
  induction l with
  | nil => intro seen; simp [dedupGo]
  | cons a rest ih =>
      intro seen
      simp only [dedupGo]
      split_ifs with h
      · exact ih seen
      · refine List.Pairwise.cons ?_ (ih _)
        intro b hb heq
        exact dedupGo_key_not_seen rest _ b hb (heq ▸ List.mem_cons_self _ _)

theorem dedupGo_cover (l : List Article) :
    ∀ seen a, a ∈ l → titleKey a ∈ seen ∨ ∃ b ∈ dedupGo seen l, titleKey b = titleKey a := by
  induction l with
  | nil => intro seen a ha; cases ha
  | cons x rest ih =>
      intro seen a ha
      simp only [dedupGo]
      split_ifs with h
      · rcases List.mem_cons.mp ha with rfl | ha'
        · exact Or.inl h
        · exact ih seen a ha'
      · rcases List.mem_cons.mp ha with rfl | ha'
        · exact Or.inr ⟨a, List.mem_cons_self _ _, rfl⟩
        · rcases ih (titleKey x :: seen) a ha' with hmem | ⟨b, hb, hbeq⟩
          · rcases List.mem_cons.mp hmem with heq | hseen
            · exact Or.inr ⟨x, List.mem_cons_self _ _, heq.symm⟩
            · exact Or.inl hseen
          · exact Or.inr ⟨b, List.mem_cons_of_mem _ hb, hbeq⟩

theorem dedupGo_find_first (l : List Article) :
    ∀ seen b, b ∈ dedupGo seen l →
      l.find? (fun a => decide (titleKey a = titleKey b)) = some b := by
  induction l with
  | nil => intro seen b hb; simp [dedupGo] at hb
  | cons x rest ih =>
      intro seen b hb
      simp only [dedupGo] at hb
      split_ifs at hb with h
      · have hbk := dedupGo_key_not_seen rest seen b hb
        have hne : titleKey x ≠ titleKey b := fun hc => hbk (hc ▸ h)
        rw [List.find?_cons_of_neg _ (by simp [hne])]
        exact ih seen b hb
      · rcases List.mem_cons.mp hb with rfl | hb'
        · rw [List.find?_cons_of_pos _ (by simp)]
        · have hbk := dedupGo_key_not_seen rest _ b hb'
          have hne : titleKey x ≠ titleKey b := fun hc => hbk (hc ▸ List.mem_cons_self _ _)
          rw [List.find?_cons_of_neg _ (by simp [hne])]
          exact ih _ b hb'

/-- Claim C8: deduplication keeps a subsequence of the input holding, for
every input article, exactly one survivor with its case-insensitive
title key (coverage plus pairwise-distinct keys), and each survivor is
the first input article bearing its key; concretely, two articles whose
titles differ only in letter case collapse to the first one. -/
theorem C8_dedup_keeps_first_occurrence (articles : List Article) :
    List.Sublist (filter_and_deduplicate articles) articles ∧
    (∀ a ∈ articles, ∃ b ∈ filter_and_deduplicate articles, titleKey b = titleKey a) ∧
    (filter_and_deduplicate articles).Pairwise (fun x y => titleKey x ≠ titleKey y) ∧
    (∀ b ∈ filter_and_deduplicate articles,
      articles.find? (fun a => decide (titleKey a = titleKey b)) = some b) ∧
    filter_and_deduplicate [⟨"Apple Soars", "A"⟩, ⟨"APPLE SOARS", "B"⟩] =
      [⟨"Apple Soars", "A"⟩] := by
  refine ⟨dedupGo_sublist articles [], ?_, dedupGo_pairwise articles [], ?_, by decide⟩
  · intro a ha
    rcases dedupGo_cover articles [] a ha with hmem | h
    · cases hmem
    · exact h
  · intro b hb
    exact dedupGo_find_first articles [] b hb

/-- Claim C8 witness: coverage applied at a concrete two-article input
whose titles differ only in case. -/
theorem C8_witness :
    ∃ b ∈ filter_and_deduplicate [⟨"A", "s"⟩, ⟨"a", "t"⟩],
      titleKey b = titleKey ⟨"a", "t"⟩ := by
  exact (C8_dedup_keeps_first_occurrence [⟨"A", "s"⟩, ⟨"a", "t"⟩]).2.1 ⟨"a", "t"⟩ (by decide)

/-- The fixed keyword list of `summarize_news` — verbatim from the source,
including the upper-case `"CEO"` entry. -/
def significant_keywords : List String :=
  ["earnings", "revenue", "profit", "loss", "beat", "miss",
   "merger", "acquisition", "lawsuit", "investigation", "fda",
   "approved", "rejected", "guidance", "outlook", "CEO", "layoff"]

/-- The `has_significant` computation of `NewsDataFetcher.summarize_news`:
some keyword occurs, verbatim, inside some lower-cased title.  (The
source's empty-list early return also yields `False`, which coincides
with `List.any` of the empty list.) -/
def news_has_significant (articles : List Article) : Bool :=
  articles.any fun a => significant_keywords.any fun k => strHasSub k (strLower a.title)

/-- Claim C9 evaluation at the failing input: a title mentioning a CEO in
any letter case never matches, because the keyword `"CEO"` is kept
upper-case while the title is lower-cased before the substring test —
so `has_significant_news` is `false` where the claim requires `true`;
a lower-case keyword such as `"earnings"` does match, confirming the
case-insensitive intent of the lowering. -/
theorem C9_keyword_case_bug :
    news_has_significant [⟨"CEO resigns", "Reuters"⟩] = false ∧
    "CEO" ∈ significant_keywords ∧
    strHasSub (strLower "CEO") (strLower "CEO resigns") = true ∧
    news_has_significant [⟨"Strong Earnings beat", "Reuters"⟩] = true := by
  refine ⟨by decide, by decide, by decide, by decide⟩

/-! ### Explanation synthesizer — `AIExplanationEngine._parse_explanation`,
`generate_explanation` and `_generate_fallback_explanation`
(`src/ai_engine.py`, lines 93–111, 203–240 and 283–316) -/

/-- Removal of every occurrence of `needle` from `hay`, scanning left to
right without overlap (Python `hay.replace(needle, '')` for a non-empty
`needle`). -/
def removeAllAux (needle : List Char) : List Char → List Char
  | [] => []
  | c :: t =>
      if listLeads needle (c :: t) ∧ needle ≠ [] then
        removeAllAux needle (t.drop (needle.length - 1))
      else c :: removeAllAux needle t
termination_by l => l.length
decreasing_by
  · simp only [List.length_drop, List.length_cons]
    omega
  · simp only [List.length_cons]
    omega

/-- Python `s.replace(sub, '')` for the non-empty literal section labels. -/
def pyRemove (s sub : String) : String := ⟨removeAllAux sub.data s.data⟩

/-- Loop state of `_parse_explanation`: the accumulating parsed fields,
the active-section pointer and the collected explanation lines. -/
structure ParseState where
  primary_driver : String
  supporting_factors : List String
  current_section : Option String
  explanation_lines : List String
  deriving Repr, DecidableEq

/-- One iteration of the `_parse_explanation` line loop, in source branch
order: blank lines are skipped, section headers switch the active
section (the primary-driver header also captures its remainder), bullet
lines feed the supporting list, and other lines feed the explanation
only while that section is active. -/
def parse_explanation_step (st : ParseState) (rawLine : String) : ParseState :=
  let line := strTrim rawLine
  if line = "" then st
  else if strStarts line "PRIMARY DRIVER:" then
    { st with primary_driver := strTrim (pyRemove line "PRIMARY DRIVER:"),
              current_section := some "primary" }
  else if strStarts line "SUPPORTING FACTORS:" then
    { st with current_section := some "supporting" }
  else if strStarts line "EXPLANATION:" then
    { st with current_section := some "explanation" }
  else if strStarts line "-" ∧ st.current_section = some "supporting" then
    { st with supporting_factors := st.supporting_factors ++ [strTrim ⟨line.data.drop 1⟩] }
  else if st.current_section = some "explanation" then
    { st with explanation_lines := st.explanation_lines ++ [line] }
  else st

/-- Result dictionary of `_parse_explanation`. -/
structure ParsedExplanation where
  primary_driver : String
  supporting_factors : List String
  explanation : String
  deriving Repr, DecidableEq

/-- Python `' '.join(ls)`. -/
def joinSpace : List String → String
  | [] => ""
  | [s] => s
  | s :: rest => s ++ " " ++ joinSpace rest

/-- Embedding of `AIExplanationEngine._parse_explanation`: fold the line
loop over the split of the stripped reply, join the explanation lines,
and fall back to the whole reply text when both the primary driver and
the explanation came out empty. -/
def parse_explanation (explanation_text : String) : ParsedExplanation :=
  let lines := splitLines (strTrim explanation_text)
  let st := lines.foldl parse_explanation_step ⟨"", [], none, []⟩
  let explanationStr := if st.explanation_lines = [] then "" else joinSpace st.explanation_lines
  if st.primary_driver = "" ∧ explanationStr = "" then
    ⟨st.primary_driver, st.supporting_factors, explanation_text⟩
  else ⟨st.primary_driver, st.supporting_factors, explanationStr⟩

/-- The explanation dictionary returned by `generate_explanation`; the
`evidence` and `news_headlines` entries are omitted as no claim reads
them. -/
structure ExplanationRecord where
  symbol : String
  date : String
  price_change_pct : ℚ
  primary_driver : String
  supporting_factors : List String
  explanation : String
  move_classification : String
  confidence : ℚ
  deriving Repr, DecidableEq

/-- Success path of `AIExplanationEngine.generate_explanation` (the oracle
call returned `replyText` without raising): parse the reply, compute the
evidence-based confidence, and assemble the returned record.  The
source's `parsed.get('primary_driver', 'Unknown')` always finds the key
(it is initialised to the empty string), so the stored — possibly
empty — value is returned. -/
def generate_explanation_success (symbol date : String) (price_change_pct : ℚ)
    (has_significant_news : Bool) (news_count : ℕ) (volume_spike : Bool)
    (classification : String) (replyText : String) : ExplanationRecord :=
  let parsed := parse_explanation replyText
  ⟨symbol, date, price_change_pct, parsed.primary_driver, parsed.supporting_factors,
   parsed.explanation, classification,
   calculate_confidence has_significant_news news_count volume_spike classification
     price_change_pct⟩

/-- Embedding of `AIExplanationEngine._generate_fallback_explanation`
(taken only when the oracle call raises): a rule-based record with the
confidence fixed at 0.4.  Numeric rendering inside the source's
f-strings is abstracted by `toString`; a `None` sector value prints as
`"None"` exactly as Python interpolates it. -/
def generate_fallback_explanation (symbol date : String) (price_change_pct : ℚ)
    (classification : String) (market_change_pct : ℚ) (sector_change_pct : Option ℚ)
    (volume_ratio : ℚ) : ExplanationRecord :=
  let primary :=
    if classification = "market_driven" then
      "Moved in line with broader market (" ++ toString market_change_pct ++ "%)"
    else if classification = "sector_driven" then
      "Followed sector trend (" ++
        (match sector_change_pct with
         | some q => toString q
         | none => "None") ++ "%)"
    else "Stock-specific movement of " ++ toString price_change_pct ++ "%"
  ⟨symbol, date, price_change_pct, primary,
   ["Volume was " ++ toString volume_ratio ++ "x average",
    "Market context: " ++ toString market_change_pct ++ "%"],
   symbol ++ " " ++ (if price_change_pct > 0 then "rose" else "fell") ++ " " ++
     toString |price_change_pct| ++ "% on " ++ date ++ ". " ++ primary ++ ".",
   classification, 0.4⟩

theorem foldl_parse_step_primary (lines : List String) :
    ∀ st : ParseState, (∀ l ∈ lines, strStarts (strTrim l) "PRIMARY DRIVER:" = false) →
      (lines.foldl parse_explanation_step st).primary_driver = st.primary_driver := by
  induction lines with
  | nil => intro st _; rfl
  | cons l rest ih =>
      intro st h
      have hl : strStarts (strTrim l) "PRIMARY DRIVER:" = false := h l (List.mem_cons_self _ _)
      have hrest : ∀ x ∈ rest, strStarts (strTrim x) "PRIMARY DRIVER:" = false :=
        fun x hx => h x (List.mem_cons_of_mem _ hx)
      rw [List.foldl_cons, ih _ hrest]
      unfold parse_explanation_step
      simp only [hl, Bool.false_eq_true, if_false]
      split_ifs <;> rfl

theorem ne_empty_of_length_pos (s : String) (h : 0 < s.length) : s ≠ "" := by
  intro hc
  rw [hc] at h
  exact absurd h (by decide)

/-- Claim C5 counterexample: for the oracle reply
`"EXPLANATION:\nThe stock rose."`, which never contains a
`PRIMARY DRIVER` section, the engine does not fall back — it returns the
parsed-path record whose `primary_driver` is the empty string and whose
confidence is the evidence score 0.5, not 0.4 or the 0.3 clamp minimum. -/
theorem C5_counterexample :
    (generate_explanation_success "AAPL" "2024-01-02" (5/2) false 0 false "mixed_influence"
      "EXPLANATION:\nThe stock rose.").primary_driver = "" ∧
    (generate_explanation_success "AAPL" "2024-01-02" (5/2) false 0 false "mixed_influence"
      "EXPLANATION:\nThe stock rose.").confidence = 1/2 ∧
    ((1 : ℚ)/2 ≠ 2/5 ∧ (1 : ℚ)/2 ≠ 3/10 ∧ ("" : String).length = 0) := by
  refine ⟨by decide, ?_, by norm_num⟩
  show calculate_confidence false 0 false "mixed_influence" (5/2) = 1/2
  norm_num [calculate_confidence, min_def, max_def,
    show |(5:ℚ)/2| = 5/2 from abs_of_nonneg (by norm_num),
    eq_false (show ("mixed_influence" : String) ≠ "market_driven" by decide),
    eq_false (show ("mixed_influence" : String) ≠ "stock_specific" by decide),
    eq_false (show ("mixed_influence" : String) ≠ "sector_driven" by decide)]

/-- Claim C5 (amended): for every oracle reply in which no line, once
stripped, starts with `"PRIMARY DRIVER:"`, the engine still returns the
parsed-path record — its `primary_driver` is the empty string and its
confidence is the evidence-based score; the rule-based fallback record,
produced only when the oracle call raises, is the one carrying the fixed
confidence 0.4 and a non-empty `primary_driver`. -/
theorem C5_missing_primary_driver_behavior (symbol date classification replyText : String)
    (price_change_pct market_change_pct volume_ratio : ℚ) (sector : Option ℚ)
    (has_significant_news volume_spike : Bool) (news_count : ℕ)
    (h : ∀ l ∈ splitLines (strTrim replyText), strStarts (strTrim l) "PRIMARY DRIVER:" = false) :
    (generate_explanation_success symbol date price_change_pct has_significant_news
      news_count volume_spike classification replyText).primary_driver = "" ∧
    (generate_explanation_success symbol date price_change_pct has_significant_news
      news_count volume_spike classification replyText).confidence =
      calculate_confidence has_significant_news news_count volume_spike classification
        price_change_pct ∧
    (generate_fallback_explanation symbol date price_change_pct classification
      market_change_pct sector volume_ratio).confidence = 0.4 ∧
    (generate_fallback_explanation symbol date price_change_pct classification
      market_change_pct sector volume_ratio).primary_driver ≠ "" := by
  have hfold := foldl_parse_step_primary (splitLines (strTrim replyText)) ⟨"", [], none, []⟩ h
  refine ⟨?_, rfl, rfl, ?_⟩
  · show (parse_explanation replyText).primary_driver = ""
    unfold parse_explanation
    dsimp only
    split_ifs <;> simpa using hfold
  · unfold generate_fallback_explanation
    dsimp only
    split_ifs
    · apply ne_empty_of_length_pos
      rw [String.length_append, String.length_append]
      have h1 : 0 < ("Moved in line with broader market (" : String).length := by decide
      omega
    · apply ne_empty_of_length_pos
      rw [String.length_append, String.length_append]
      have h1 : 0 < ("Followed sector trend (" : String).length := by decide
      omega
    · apply ne_empty_of_length_pos
      rw [String.length_append, String.length_append]
      have h1 : 0 < ("Stock-specific movement of " : String).length := by decide
      omega

/-- Claim C5 witness: a concrete reply consisting only of an EXPLANATION
section satisfies the no-primary-driver-line hypothesis, and the
theorem applies. -/
theorem C5_witness :
    (∀ l ∈ splitLines (strTrim "EXPLANATION:\nIt went up."),
      strStarts (strTrim l) "PRIMARY DRIVER:" = false) ∧
    (generate_explanation_success "MSFT" "2024-03-05" 3 true 4 true "market_driven"
      "EXPLANATION:\nIt went up.").primary_driver = "" ∧
    (generate_fallback_explanation "MSFT" "2024-03-05" 3 "market_driven" 1 none 2).confidence
      = 0.4 := by
  have hh : ∀ l ∈ splitLines (strTrim "EXPLANATION:\nIt went up."),
      strStarts (strTrim l) "PRIMARY DRIVER:" = false := by decide
  have h := C5_missing_primary_driver_behavior "MSFT" "2024-03-05" "market_driven"
    "EXPLANATION:\nIt went up." 3 1 2 none true true 4 hh
  exact ⟨hh, h.1, h.2.2.1⟩

/-! ### Backend reply parser — `AIEngine._parse_response`
(`backend/services/ai_engine.py`, lines 138–213) -/

/-- Python `max(a, b)` on two numbers: the first argument is returned on
ties. -/
def pyMax (a b : ℚ) : ℚ := if a < b then b else a

/-- Python `min(a, b)` on two numbers: the first argument is returned on
ties. -/
def pyMin (a b : ℚ) : ℚ := if b < a then b else a

/-- Numeric value of a digit run (most significant first). -/
def digitsToNat (ds : List Char) : ℕ :=
  ds.foldl (fun n c => 10 * n + (c.toNat - ('0').toNat)) 0

/-- Unsigned decimal literal: digits, optionally followed by a point and
further digits, with at least one digit overall. -/
def parseUnsignedDec? (cs : List Char) : Option ℚ :=
  let intPart := cs.takeWhile Char.isDigit
  match cs.drop intPart.length with
  | [] => if intPart = [] then none else some (mkRat (digitsToNat intPart) 1)
  | '.' :: frac =>
      let fracDigits := frac.takeWhile Char.isDigit
      if frac.drop fracDigits.length ≠ [] then none
      else if intPart = [] ∧ fracDigits = [] then none
      else some (mkRat
        (digitsToNat intPart * 10 ^ fracDigits.length + digitsToNat fracDigits)
        (10 ^ fracDigits.length))
  | _ => none

/-- Python `float(s)` restricted to optionally signed plain decimal
literals with surrounding whitespace; exponent, infinity and NaN forms
are rejected by the model (every string this model accepts is parsed to
the same value by Python). -/
def parseFloatQ? (s : String) : Option ℚ :=
  match trimChars s.data with
  | '+' :: rest => parseUnsignedDec? rest
  | '-' :: rest => (parseUnsignedDec? rest).map Neg.neg
  | rest => parseUnsignedDec? rest

/-- Result dictionary of `AIEngine._parse_response`. -/
structure AIParseResult where
  full_explanation : String
  summary : String
  primary_driver : String
  supporting_factors : List String
  move_classification : String
  confidence_score : ℚ
  uncertainty_note : Option String
  deriving Repr, DecidableEq

/-- One iteration of the `_parse_response` line loop, in source branch
order: a recognized section header switches the active section and the
loop continues; otherwise a non-blank line feeds the active section,
with the confidence section parsing the line as a float clamped into
[0, 1] (an unparsable line is ignored, keeping the prior value). -/
def backend_parse_step (st : AIParseResult × Option String) (rawLine : String) :
    AIParseResult × Option String :=
  let line := strTrim rawLine
  if strStarts line "SUMMARY:" then (st.1, some "summary")
  else if strStarts line "PRIMARY DRIVER:" then (st.1, some "primary_driver")
  else if strStarts line "SUPPORTING FACTORS:" then (st.1, some "supporting_factors")
  else if strStarts line "MOVE CLASSIFICATION:" then (st.1, some "move_classification")
  else if strStarts line "CONFIDENCE SCORE:" then (st.1, some "confidence_score")
  else if strStarts line "UNCERTAINTY NOTE:" then (st.1, some "uncertainty_note")
  else if st.2 = some "summary" ∧ line ≠ "" then
    ({ st.1 with summary := st.1.summary ++ line ++ " " }, st.2)
  else if st.2 = some "primary_driver" ∧ line ≠ "" then
    ({ st.1 with primary_driver := st.1.primary_driver ++ line ++ " " }, st.2)
  else if st.2 = some "supporting_factors" ∧ strStarts line "-" then
    ({ st.1 with supporting_factors :=
        st.1.supporting_factors ++ [strTrim ⟨line.data.drop 1⟩] }, st.2)
  else if st.2 = some "move_classification" ∧ line ≠ "" then
    ({ st.1 with move_classification := line }, st.2)
  else if st.2 = some "confidence_score" ∧ line ≠ "" then
    (match parseFloatQ? line with
     | some score => ({ st.1 with confidence_score := pyMax 0 (pyMin 1 score) }, st.2)
     | none => st)
  else if st.2 = some "uncertainty_note" ∧ line ≠ "" then
    (if strLower line ≠ "none" then ({ st.1 with uncertainty_note := some line }, st.2)
     else st)
  else st

/-- Embedding of `AIEngine._parse_response`: fold the line loop over the
split of the stripped reply starting from the defaults (confidence 0.5),
then strip the accumulated summary and primary driver.  The source's
blanket `except` branch (confidence 0.3) is unreachable in this pure
model and is not taken for any reply. -/
def backend_parse_response (ai_response : String) : AIParseResult :=
  let lines := splitLines (strTrim ai_response)
  let init : AIParseResult := ⟨ai_response, "", "", [], "", 0.5, none⟩
  let st := lines.foldl backend_parse_step (init, none)
  { st.1 with summary := strTrim st.1.summary, primary_driver := strTrim st.1.primary_driver }

theorem pyClamp01_bounds (x : ℚ) : 0 ≤ pyMax 0 (pyMin 1 x) ∧ pyMax 0 (pyMin 1 x) ≤ 1 := by
  unfold pyMax pyMin
  split_ifs <;> constructor <;> linarith

set_option maxHeartbeats 2000000 in
theorem backend_step_confidence_bounds (st : AIParseResult × Option String) (rawLine : String)
    (hst : 0 ≤ st.1.confidence_score ∧ st.1.confidence_score ≤ 1) :
    0 ≤ (backend_parse_step st rawLine).1.confidence_score ∧
      (backend_parse_step st rawLine).1.confidence_score ≤ 1 := by
  unfold backend_parse_step
  dsimp only
  by_cases h1 : strStarts (strTrim rawLine) "SUMMARY:" = true
  · rw [if_pos h1]; exact hst
  rw [if_neg h1]
  by_cases h2 : strStarts (strTrim rawLine) "PRIMARY DRIVER:" = true
  · rw [if_pos h2]; exact hst
  rw [if_neg h2]
  by_cases h3 : strStarts (strTrim rawLine) "SUPPORTING FACTORS:" = true
  · rw [if_pos h3]; exact hst
  rw [if_neg h3]
  by_cases h4 : strStarts (strTrim rawLine) "MOVE CLASSIFICATION:" = true
  · rw [if_pos h4]; exact hst
  rw [if_neg h4]
  by_cases h5 : strStarts (strTrim rawLine) "CONFIDENCE SCORE:" = true
  · rw [if_pos h5]; exact hst
  rw [if_neg h5]
  by_cases h6 : strStarts (strTrim rawLine) "UNCERTAINTY NOTE:" = true
  · rw [if_pos h6]; exact hst
  rw [if_neg h6]
  by_cases h7 : st.2 = some "summary" ∧ strTrim rawLine ≠ ""
  · rw [if_pos h7]; exact hst
  rw [if_neg h7]
  by_cases h8 : st.2 = some "primary_driver" ∧ strTrim rawLine ≠ ""
  · rw [if_pos h8]; exact hst
  rw [if_neg h8]
  by_cases h9 : st.2 = some "supporting_factors" ∧ strStarts (strTrim rawLine) "-" = true
  · rw [if_pos h9]; exact hst
  rw [if_neg h9]
  by_cases h10 : st.2 = some "move_classification" ∧ strTrim rawLine ≠ ""
  · rw [if_pos h10]; exact hst
  rw [if_neg h10]
  by_cases h11 : st.2 = some "confidence_score" ∧ strTrim rawLine ≠ ""
  · rw [if_pos h11]
    cases hp : parseFloatQ? (strTrim rawLine) with
    | none => simp only [hp]; exact hst
    | some sc => simp only [hp]; exact pyClamp01_bounds sc
  rw [if_neg h11]
  by_cases h12 : st.2 = some "uncertainty_note" ∧ strTrim rawLine ≠ ""
  · rw [if_pos h12]
    by_cases h13 : strLower (strTrim rawLine) ≠ "none"
    · rw [if_pos h13]; exact hst
    · rw [if_neg h13]; exact hst
  rw [if_neg h12]
  exact hst

theorem backend_foldl_confidence_bounds (lines : List String) :
    ∀ st : AIParseResult × Option String,
      0 ≤ st.1.confidence_score ∧ st.1.confidence_score ≤ 1 →
      0 ≤ (lines.foldl backend_parse_step st).1.confidence_score ∧
        (lines.foldl backend_parse_step st).1.confidence_score ≤ 1 := by
  induction lines with
  | nil => intro st hst; exact hst
  | cons l rest ih =>
      intro st hst
      rw [List.foldl_cons]
      exact ih _ (backend_step_confidence_bounds st l hst)

/-- Claim C2 counterexample: the backend reply parser clamps an
oracle-supplied confidence only into [0, 1], so the reply
`"CONFIDENCE SCORE:\n0.1"` produces an Explanation whose confidence
score 0.1 lies outside [0.3, 0.95]. -/
theorem C2_counterexample :
    (backend_parse_response "CONFIDENCE SCORE:\n0.1").confidence_score = mkRat 1 10 ∧
    mkRat 1 10 = (1/10 : ℚ) ∧
    ¬(3/10 ≤ (1/10 : ℚ) ∧ (1/10 : ℚ) ≤ 19/20) := by
  refine ⟨by decide, ?_, by norm_num⟩
  rw [Rat.mkRat_eq_div]
  norm_num

/-- Claim C2 (amended): the `AIExplanationEngine` of `src/` always returns
a confidence in [0.3, 0.95] — the parsed-path score is clamped there and
the fallback record carries the constant 0.4 — while the backend
`AIEngine._parse_response` guarantees only [0, 1] for the
oracle-supplied confidence it parses. -/
theorem C2_confidence_ranges (has_significant_news volume_spike : Bool) (news_count : ℕ)
    (classification symbol date reply : String) (price_change_pct market_change_pct : ℚ)
    (sector : Option ℚ) (volume_ratio : ℚ) :
    (3/10 ≤ calculate_confidence has_significant_news news_count volume_spike
        classification price_change_pct ∧
      calculate_confidence has_significant_news news_count volume_spike
        classification price_change_pct ≤ 19/20) ∧
    (generate_fallback_explanation symbol date price_change_pct classification
        market_change_pct sector volume_ratio).confidence = 0.4 ∧
    (0 ≤ (backend_parse_response reply).confidence_score ∧
      (backend_parse_response reply).confidence_score ≤ 1) := by
  refine ⟨?_, rfl, ?_⟩
  · unfold calculate_confidence
    constructor
    · calc (3/10 : ℚ) = 0.3 := by norm_num
        _ ≤ _ := le_max_left _ _
    · exact max_le (by norm_num) (le_trans (min_le_left _ _) (by norm_num))
  · unfold backend_parse_response
    dsimp only
    have h := backend_foldl_confidence_bounds (splitLines (strTrim reply))
      (⟨reply, "", "", [], "", 0.5, none⟩, none) (by norm_num)
    simpa using h

/-! ### Orchestrator — `MoveEngine.quick_check` and
`MoveEngine.get_top_movers` (`src/move_engine.py`, lines 89–117 and
144–182) -/

/-- The fields of the `analyze_move` result dictionary that `quick_check`
reads (`requires_explanation = is_significant or volume_spike` is
computed inside `analyze_move`). -/
structure MoveAnalysisLite where
  price_change_pct : ℚ
  volume_spike : Bool
  classification : String
  requires_explanation : Bool
  deriving Repr, DecidableEq

/-- Result dictionary of `quick_check`.  In the exception branch the
source dictionary has only `symbol`, `date`, `error` and
`is_significant`; the three missing keys are modelled as `none`. -/
structure QuickCheckResult where
  symbol : String
  date : String
  is_significant : Bool
  price_change_pct : Option ℚ
  volume_spike : Option Bool
  classification : Option String
  error : Option String
  deriving Repr, DecidableEq

/-- Embedding of `MoveEngine.quick_check`: the underlying
`analyze_move` data fetch either returns a record or raises (modelled by
`Except`); any exception is caught and turned into an error record with
`is_significant = False`, so the function itself never raises. -/
def quick_check (symbol date : String) (fetch : Except String MoveAnalysisLite) :
    QuickCheckResult :=
  match fetch with
  | .ok m =>
      ⟨symbol, date, m.requires_explanation, some m.price_change_pct,
       some m.volume_spike, some m.classification, none⟩
  | .error e => ⟨symbol, date, false, none, none, none, some e⟩

/-- The mover-collection loop of `get_top_movers`: one quick check per
symbol, keeping `(symbol, |price_change_pct|)` for the significant ones.
(The significant case always comes from the `.ok` branch, where the
price change is present; `getD 0` is never the default there.) -/
def top_movers_candidates (date : String)
    (checks : List (String × Except String MoveAnalysisLite)) : List (String × ℚ) :=
  checks.filterMap fun sf =>
    let check := quick_check sf.1 date sf.2
    if check.is_significant then some (sf.1, |check.price_change_pct.getD 0|) else none

/-- The ranking stage of `get_top_movers`: the candidates sorted by
absolute price change, descending (Python `list.sort(..., reverse=True)`
is a stable sort). -/
def top_movers_ranking (date : String)
    (checks : List (String × Except String MoveAnalysisLite)) : List (String × ℚ) :=
  (top_movers_candidates date checks).mergeSort fun a b => b.2 ≤ a.2

/-- Claim C10: `quick_check` turns any fetch exception into a record
carrying the symbol, the date, the error text and
`is_significant = false` (never propagating it), and in the top-movers
flow a symbol whose data fetch fails is silently dropped: the candidate
list and the ranking are exactly those of the same input without that
symbol. -/
theorem C10_quick_check_catches_and_top_movers_drops
    (s d e : String) (l1 l2 : List (String × Except String MoveAnalysisLite)) :
    quick_check s d (Except.error e) = ⟨s, d, false, none, none, none, some e⟩ ∧
    top_movers_candidates d (l1 ++ (s, Except.error e) :: l2) =
      top_movers_candidates d (l1 ++ l2) ∧
    top_movers_ranking d (l1 ++ (s, Except.error e) :: l2) =
      top_movers_ranking d (l1 ++ l2) := by
  have hcand : top_movers_candidates d (l1 ++ (s, Except.error e) :: l2) =
      top_movers_candidates d (l1 ++ l2) := by
    unfold top_movers_candidates
    rw [List.filterMap_append, List.filterMap_append, List.filterMap_cons]
    simp [quick_check]
  refine ⟨rfl, hcand, ?_⟩
  unfold top_movers_ranking
  rw [hcand]

end Move
